import Mathlib

/-!
Shallow embedding of the github-crawler-assessment repository.

Source files embedded:
- `src/crawler/github_client.py` — `GitHubGraphQLClient._execute_query` (retry loop,
  rate-limit wait, error classification).
- `src/db/connection.py` — `DatabaseManager.upsert_repositories` and
  `DatabaseManager.insert_star_counts` (batched SQL with commit-at-end transactions,
  `autocommit = False`).
- `src/main.py` — the `main` crawl loop (fetch, filter, persist, advance cursor,
  termination conditions, per-page exception handling).

Timestamps produced by the remote API (`createdAt`, `updatedAt`) are opaque strings;
timestamps produced by the database (`CURRENT_TIMESTAMP`) are modelled as a `Nat`
transaction time passed explicitly.
-/

/-! ## Data model: the GraphQL response shape consumed by `main` -/

/-- One repository node of the `search.nodes` payload in
`GitHubGraphQLClient.fetch_repositories`.  A null or missing `databaseId` is
modelled as `databaseId = 0`: Python's truthiness test `r.get('databaseId')`
rejects `None`, a missing key, and `0` alike. -/
structure RepoNode where
  databaseId : Nat
  name : String
  ownerLogin : String
  nameWithOwner : String
  stargazerCount : Nat
  createdAt : String
  updatedAt : String
deriving DecidableEq, Repr

/-- The `pageInfo` object of a search response. -/
structure PageInfo where
  hasNextPage : Bool
  endCursor : Option String
deriving DecidableEq, Repr

/-- The `data.search` object: the raw node list (entries may be `null`, i.e.
`none`) plus pagination info. -/
structure SearchData where
  nodes : List (Option RepoNode)
  pageInfo : PageInfo
deriving DecidableEq, Repr

/-- A GraphQL response as seen by `main`: it may lack the `data` key
(`'data' not in response`). -/
structure GraphQLResponse where
  data? : Option SearchData
deriving DecidableEq, Repr

/-! ## Store: `src/db/connection.py` -/

/-- One row of the `repositories` table, keyed externally by `id`.
Columns follow the INSERT in `DatabaseManager.upsert_repositories`. -/
structure RepoRow where
  name : String
  owner : String
  full_name : String
  created_at : String
  updated_at : String
  last_crawled_at : Nat
deriving DecidableEq, Repr

/-- The `repositories` table: a finite map from the primary key `id` to the row. -/
def RepoTable : Type := Nat → Option RepoRow

/-- The row inserted for a fresh id: all columns from the node, with
`last_crawled_at = CURRENT_TIMESTAMP` (the transaction time `now`). -/
def newRow (r : RepoNode) (now : Nat) : RepoRow :=
  ⟨r.name, r.ownerLogin, r.nameWithOwner, r.createdAt, r.updatedAt, now⟩

/-- `ON CONFLICT (id) DO UPDATE SET updated_at = EXCLUDED.updated_at,
last_crawled_at = CURRENT_TIMESTAMP`: only the two mutable columns change. -/
def updRow (row : RepoRow) (r : RepoNode) (now : Nat) : RepoRow :=
  { row with updated_at := r.updatedAt, last_crawled_at := now }

/-- Effect of one row's upsert statement on the table. -/
def upsertOne (now : Nat) (db : RepoTable) (r : RepoNode) : RepoTable :=
  fun x =>
    if x = r.databaseId then
      match db r.databaseId with
      | some row => some (updRow row r now)
      | none => some (newRow r now)
    else db x

/-- `DatabaseManager.upsert_repositories`: `execute_batch` runs the upsert
statement once per record, in list order, inside one transaction. -/
def upsert_repositories (db : RepoTable) (repos : List RepoNode) (now : Nat) : RepoTable :=
  repos.foldl (upsertOne now) db

/-- One row of the `repository_stars` table.

Modelled from the spec: `src/db/schema.sql` is loaded by `setup_schema` but is
not among the repository sources; per the spec the unique key is
`(repositoryId, observedAt)` with `observedAt` at day-level (or configured)
granularity, so `recorded_at` is modelled as an opaque period stamp (`Nat`)
and `CURRENT_TIMESTAMP` yields the current period. -/
structure StarRow where
  repository_id : Nat
  star_count : Nat
  recorded_at : Nat
deriving DecidableEq, Repr

/-- The boolean conflict-key test for `(repository_id, recorded_at)`. -/
def starKey (id p : Nat) (s : StarRow) : Bool :=
  s.repository_id == id && s.recorded_at == p

/-- Effect of one row's `INSERT ... ON CONFLICT (repository_id, recorded_at)
DO NOTHING` statement: append unless the key is already present. -/
def insertStarOne (p : Nat) (db : List StarRow) (r : RepoNode) : List StarRow :=
  if db.any (starKey r.databaseId p) then db
  else db ++ [⟨r.databaseId, r.stargazerCount, p⟩]

/-- `DatabaseManager.insert_star_counts`: one insert statement per record, in
list order, inside one transaction, all sharing the call's period `p`. -/
def insert_star_counts (db : List StarRow) (star_data : List RepoNode) (p : Nat) :
    List StarRow :=
  star_data.foldl (insertStarOne p) db

/-- Number of stored observations for a given `(repository_id, recorded_at)` key. -/
def starRowCount (db : List StarRow) (id p : Nat) : Nat :=
  (db.filter (starKey id p)).length

/-! ### Transactional wrappers (commit-at-end, `autocommit = False`)

Both persistence methods run all statements with `execute_batch` and call
`self.conn.commit()` only afterwards.  `runBatch` executes the statements in
order against a working state; `failAt = some k` means the `k`-th statement
raises, in which case control leaves the method before `commit()` and the
committed state is untouched. -/

/-- Run a batch of statements; `none` means a statement raised before commit. -/
def runBatch {α β : Type} (f : α → β → α) : α → List β → Option Nat → Option α
  | work, [], _ => some work
  | _, _ :: _, some 0 => none
  | work, r :: rs, some (k + 1) => runBatch f (f work r) rs (some k)
  | work, r :: rs, none => runBatch f (f work r) rs none

/-- A call to `upsert_repositories` as main observes it: the committed table
afterwards, and whether the call returned (`true`) or raised (`false`). -/
def upsert_repositories_call (db : RepoTable) (repos : List RepoNode) (now : Nat)
    (failAt : Option Nat) : RepoTable × Bool :=
  match runBatch (upsertOne now) db repos failAt with
  | some work => (work, true)
  | none => (db, false)

/-- A call to `insert_star_counts` as main observes it. -/
def insert_star_counts_call (db : List StarRow) (star_data : List RepoNode) (p : Nat)
    (failAt : Option Nat) : List StarRow × Bool :=
  match runBatch (insertStarOne p) db star_data failAt with
  | some work => (work, true)
  | none => (db, false)

/-! ## Fetcher: `GitHubGraphQLClient._execute_query` -/

/-- Outcome of one HTTP attempt, as classified by the Python code.
`resp` carries the status code, the parsed `X-RateLimit-Remaining` and
`X-RateLimit-Reset` headers (both default to `0` when absent), whether the JSON
body contains an `errors` key, and the parsed body. -/
inductive ReqOutcome where
  | timeout
  | netError
  | resp (status : Nat) (remaining : Nat) (reset : Int) (hasErrors : Bool)
      (payload : GraphQLResponse)
deriving DecidableEq, Repr

/-- The exceptions `_execute_query` can raise.  All of them are plain Python
`Exception`s as far as callers are concerned. -/
inductive QueryError where
  | graphqlErrors
  | auth
  | timeout
  | requestError
  | maxRetriesExceeded
deriving DecidableEq, Repr

/-- `max_retries = 3` in `_execute_query`. -/
def maxRetries : Nat := 3

/-- Exponential backoff `2 ** attempt` (seconds). -/
def backoff (attempt : Nat) : Int := (2 : Int) ^ attempt

/-- The rate-limit wait `max(reset_time - time.time() + 10, 60)`. -/
def rateWait (reset now : Int) : Int := max (reset - now + 10) 60

/-- The `for attempt in range(max_retries)` loop of `_execute_query`.
`outcomes attempt` is what the HTTP layer does on that attempt; `now` is the
wall clock, advanced by every `time.sleep`.  Branches in source order:
HTTP 200 (with GraphQL-error retry), then `status == 403 or remaining == 0`
(rate-limit wait, `continue` — which still advances `attempt`), then
`status == 401` (raise), then `raise_for_status()` (an HTTPError is caught by
the `RequestException` handler and retried with backoff; a non-error status
falls through to the next attempt without sleeping). -/
def execAttempts (outcomes : Nat → ReqOutcome) :
    Nat → Nat → Int → Except QueryError GraphQLResponse × Int
  | 0, _, now => (.error .maxRetriesExceeded, now)
  | fuel + 1, attempt, now =>
    match outcomes attempt with
    | .timeout =>
      if attempt < maxRetries - 1 then
        execAttempts outcomes fuel (attempt + 1) (now + backoff attempt)
      else (.error .timeout, now)
    | .netError =>
      if attempt < maxRetries - 1 then
        execAttempts outcomes fuel (attempt + 1) (now + backoff attempt)
      else (.error .requestError, now)
    | .resp status remaining reset hasErrors payload =>
      if status = 200 then
        if hasErrors then
          if attempt < maxRetries - 1 then
            execAttempts outcomes fuel (attempt + 1) (now + backoff attempt)
          else (.error .graphqlErrors, now)
        else (.ok payload, now)
      else if status = 403 ∨ remaining = 0 then
        execAttempts outcomes fuel (attempt + 1) (now + rateWait reset now)
      else if status = 401 then
        (.error .auth, now)
      else if 400 ≤ status then
        if attempt < maxRetries - 1 then
          execAttempts outcomes fuel (attempt + 1) (now + backoff attempt)
        else (.error .requestError, now)
      else
        execAttempts outcomes fuel (attempt + 1) now

/-- `_execute_query` proper: run the attempt loop from attempt 0 with the full
budget; falling off the loop raises `Exception("Max retries exceeded")`. -/
def execute_query (outcomes : Nat → ReqOutcome) (now : Int) :
    Except QueryError GraphQLResponse × Int :=
  execAttempts outcomes maxRetries 0 now

/-! ## Orchestrator: the crawl loop in `src/main.py` -/

/-- The filter `[r for r in repos if r and r.get('databaseId')]` on the raw
node list. -/
def filterValid (nodes : List (Option RepoNode)) : List RepoNode :=
  (nodes.filterMap id).filter (fun r => r.databaseId != 0)

/-- Loop-local state of `main`: the progress counters plus the committed
database tables. -/
structure CrawlState where
  totalRepos : Nat
  cursor : Option String
  repoTable : RepoTable
  starTable : List StarRow

/-- What the environment does during one loop iteration: a `KeyboardInterrupt`,
a fetch call that raises, or a fetch that returns `resp` followed by the two
persistence calls (each of which may raise — the flags mark a raise). -/
inductive IterEvent where
  | interrupt
  | fetchErr (e : QueryError)
  | fetched (resp : GraphQLResponse) (upsertFails : Bool) (insertFails : Bool)

/-- Convert a fetch result into the orchestrator-visible event. -/
def fetchEvent (r : Except QueryError GraphQLResponse) (uf sf : Bool) : IterEvent :=
  match r with
  | .error e => .fetchErr e
  | .ok resp => .fetched resp uf sf

/-- How one iteration's `break` was reached. -/
inductive TermKind where
  | noData
  | exhausted
  | interrupted
deriving DecidableEq, Repr

/-- Result of one iteration: keep looping, or `break` out. -/
inductive StepResult where
  | continueRun (s : CrawlState)
  | stop (s : CrawlState) (k : TermKind)

/-- The state carried out of an iteration. -/
def StepResult.state : StepResult → CrawlState
  | .continueRun s => s
  | .stop s _ => s

/-- State after a successful `db.upsert_repositories(repos)` call. -/
def stepUpsert (now : Nat) (s : CrawlState) (sd : SearchData) : CrawlState :=
  { s with repoTable := upsert_repositories s.repoTable (filterValid sd.nodes) now }

/-- State after both persistence calls succeeded and
`total_repos += len(repos)` ran. -/
def stepBoth (now : Nat) (s : CrawlState) (sd : SearchData) : CrawlState :=
  { stepUpsert now s sd with
      starTable := insert_star_counts s.starTable (filterValid sd.nodes) now,
      totalRepos := s.totalRepos + (filterValid sd.nodes).length }

/-- One iteration of the `while total_repos < target` body (main.py lines
80–138), given what the environment does.  `KeyboardInterrupt` → `break`;
any other exception → `continue` (state untouched up to completed writes);
missing `data` or empty raw node list → `break`; empty filtered batch →
`continue`; then upsert, star insert, counter update; `hasNextPage` false →
`break` (before the cursor assignment); otherwise `cursor = endCursor`. -/
def crawlStep (now : Nat) (s : CrawlState) (ev : IterEvent) : StepResult :=
  match ev with
  | .interrupt => .stop s .interrupted
  | .fetchErr _ => .continueRun s
  | .fetched resp upsertFails insertFails =>
    match resp.data? with
    | none => .stop s .noData
    | some sd =>
      if sd.nodes.isEmpty then .stop s .noData
      else if (filterValid sd.nodes).isEmpty then .continueRun s
      else if upsertFails then .continueRun s
      else if insertFails then .continueRun (stepUpsert now s sd)
      else if sd.pageInfo.hasNextPage then
        .continueRun { stepBoth now s sd with cursor := sd.pageInfo.endCursor }
      else .stop (stepBoth now s sd) .exhausted

/-- How the whole loop ended. -/
inductive CrawlOutcome where
  | completed
  | noData
  | exhausted
  | interrupted
  | fuelOut
deriving DecidableEq, Repr

/-- Map a `break` kind to the loop outcome. -/
def termOutcome : TermKind → CrawlOutcome
  | .noData => .noData
  | .exhausted => .exhausted
  | .interrupted => .interrupted

/-- The `while total_repos < target` loop, fuelled: `events i` and `times i`
give iteration `i`'s environment behaviour and clock.  `fuelOut` marks fuel
exhaustion, i.e. the loop was still running. -/
def crawlLoop (events : Nat → IterEvent) (times : Nat → Nat) (target : Nat) :
    Nat → Nat → CrawlState → CrawlState × CrawlOutcome
  | 0, _, s => (s, .fuelOut)
  | fuel + 1, i, s =>
    if s.totalRepos < target then
      match crawlStep (times i) s (events i) with
      | .continueRun s₂ => crawlLoop events times target fuel (i + 1) s₂
      | .stop s₂ k => (s₂, termOutcome k)
    else (s, .completed)

/-! ## Store lemmas -/

/-- Effect of one upsert statement on the value stored at its own key. -/
def applyStep (now : Nat) (c : Option RepoRow) (r : RepoNode) : Option RepoRow :=
  match c with
  | some row => some (updRow row r now)
  | none => some (newRow r now)

/-- Effect of a sequence of upsert statements, all with key `x`, on the value
stored at `x`. -/
def applyMatches (now : Nat) (c : Option RepoRow) (ms : List RepoNode) : Option RepoRow :=
  ms.foldl (applyStep now) c

theorem upsertOne_lookup_eq (now : Nat) (db : RepoTable) (r : RepoNode) (x : Nat)
    (h : r.databaseId = x) : upsertOne now db r x = applyStep now (db x) r := by
  subst h
  simp [upsertOne, applyStep]

theorem upsertOne_lookup_ne (now : Nat) (db : RepoTable) (r : RepoNode) (x : Nat)
    (h : ¬r.databaseId = x) : upsertOne now db r x = db x := by
  simp only [upsertOne]
  rw [if_neg (fun hx => h hx.symm)]

/-- Pointwise characterisation of a batched upsert: the value at `x` is the
initial value run through exactly the statements whose key is `x`. -/
theorem upsert_repositories_lookup (repos : List RepoNode) (db : RepoTable) (now x : Nat) :
    upsert_repositories db repos now x =
      applyMatches now (db x) (repos.filter (fun r => r.databaseId == x)) := by
  induction repos generalizing db with
  | nil => rfl
  | cons r rs ih =>
    show upsert_repositories (upsertOne now db r) rs now x = _
    rw [ih]
    by_cases h : r.databaseId = x
    · rw [List.filter_cons_of_pos (by simpa using h), upsertOne_lookup_eq now db r x h]
      rfl
    · rw [List.filter_cons_of_neg (by simpa using h), upsertOne_lookup_ne now db r x h]

theorem updRow_updRow (row : RepoRow) (m u : RepoNode) (now : Nat) :
    updRow (updRow row m now) u now = updRow row u now := rfl

theorem applyMatches_some (now : Nat) (row : RepoRow) (ms : List RepoNode) :
    applyMatches now (some row) ms =
      some (ms.foldl (fun a u => updRow a u now) row) := by
  induction ms generalizing row with
  | nil => rfl
  | cons m ms ih => exact ih (updRow row m now)

theorem foldl_updRow (ms : List RepoNode) (row : RepoRow) (m : RepoNode) (now : Nat) :
    ms.foldl (fun a u => updRow a u now) (updRow row m now) =
      updRow row (ms.getLastD m) now := by
  induction ms generalizing row m with
  | nil => rfl
  | cons u ms ih =>
    rw [List.foldl_cons, updRow_updRow, ih, List.getLastD_cons]

theorem applyMatches_some_cons (now : Nat) (row : RepoRow) (m : RepoNode)
    (ms : List RepoNode) :
    applyMatches now (some row) (m :: ms) = some (updRow row (ms.getLastD m) now) := by
  rw [applyMatches_some, List.foldl_cons, foldl_updRow]

theorem applyMatches_none_cons (now : Nat) (m : RepoNode) (ms : List RepoNode) :
    applyMatches now none (m :: ms) =
      some (updRow (newRow m now) (ms.getLastD m) now) := by
  show applyMatches now (some (newRow m now)) ms = _
  rw [applyMatches_some]
  have h : newRow m now = updRow (newRow m now) m now := rfl
  conv_lhs => rw [h]
  rw [foldl_updRow]

/-- C3 claim theorem (see below); stated as a standalone development lemma
for the idempotence half. -/
theorem upsert_repositories_idem_lookup (db : RepoTable) (repos : List RepoNode)
    (now x : Nat) :
    upsert_repositories (upsert_repositories db repos now) repos now x =
      upsert_repositories db repos now x := by
  rw [upsert_repositories_lookup, upsert_repositories_lookup]
  cases hms : repos.filter (fun r => r.databaseId == x) with
  | nil => rfl
  | cons m ms =>
    cases hc : db x with
    | some row =>
      rw [applyMatches_some_cons, applyMatches_some_cons, updRow_updRow]
    | none =>
      rw [applyMatches_none_cons, applyMatches_some_cons, updRow_updRow]

/-! ## Claim C3 -/

/-- C3: applying `upsert_repositories` twice with identical input (at the same
transaction time) yields the same stored table as applying it once; and for
every id already present, the upsert either leaves the row untouched or applies
`updRow` — i.e. changes only `updated_at` and `last_crawled_at` — so
`created_at`, `name`, `owner` and `full_name` never change on conflict. -/
theorem upsert_idempotent_preserves_identity (db : RepoTable) (repos : List RepoNode)
    (now : Nat) :
    upsert_repositories (upsert_repositories db repos now) repos now =
      upsert_repositories db repos now ∧
    ∀ x row, db x = some row →
      ∃ row₂, upsert_repositories db repos now x = some row₂ ∧
        (row₂ = row ∨ ∃ u, row₂ = updRow row u now) ∧
        row₂.created_at = row.created_at ∧ row₂.name = row.name ∧
        row₂.owner = row.owner ∧ row₂.full_name = row.full_name := by
  constructor
  · funext x
    exact upsert_repositories_idem_lookup db repos now x
  · intro x row hrow
    rw [upsert_repositories_lookup, hrow]
    cases hms : repos.filter (fun r => r.databaseId == x) with
    | nil => exact ⟨row, rfl, Or.inl rfl, rfl, rfl, rfl, rfl⟩
    | cons m ms =>
      rw [applyMatches_some_cons]
      exact ⟨updRow row (ms.getLastD m) now, rfl, Or.inr ⟨ms.getLastD m, rfl⟩,
        rfl, rfl, rfl, rfl⟩

/-- Witness data for C3: one stored row at id 5, one batch updating it. -/
def rowW : RepoRow := ⟨"repo", "alice", "ar", "2019", "2020", 1⟩

/-- Witness data for C3: the table holding only `rowW` at id 5. -/
def dbW : RepoTable := fun x => if x = 5 then some rowW else none

/-- Witness data for C3: a node for id 5 with a newer `updatedAt`. -/
def nodeW : RepoNode := ⟨5, "repo", "alice", "ar", 9, "2019", "2024"⟩

/-- C3 witness: the preservation half applied at the concrete table `dbW`. -/
theorem upsert_idempotent_preserves_identity_witness :
    ∃ row₂, upsert_repositories dbW [nodeW] 7 5 = some row₂ ∧
      (row₂ = rowW ∨ ∃ u, row₂ = updRow rowW u 7) ∧
      row₂.created_at = rowW.created_at ∧ row₂.name = rowW.name ∧
      row₂.owner = rowW.owner ∧ row₂.full_name = rowW.full_name :=
  (upsert_idempotent_preserves_identity dbW [nodeW] 7).2 5 rowW rfl

/-! ## Claim C4 -/

/-- A node carrying just an id and a star count, as `insert_star_counts` reads
them (`repo['databaseId']`, `repo['stargazerCount']`). -/
def mkStarNode (id c : Nat) : RepoNode := ⟨id, "", "", "", c, "", ""⟩

/-- C4: star observations are append-only and deduplicated per period.
Starting from a table with no observation for `(id, p)` nor `(id, p₂)`:
inserting `(id, c₁)` in period `p` appends one row; re-inserting for the same
`(id, p)` is a silent no-op (the stored count stays `c₁`, no error, no
overwrite) and the key still has exactly one row; inserting in a different
period `p₂` appends a second row, giving one row per period. -/
theorem star_observations_per_period (db : List StarRow) (id c₁ c₂ p p₂ : Nat)
    (hp : db.any (starKey id p) = false) (hp₂ : db.any (starKey id p₂) = false)
    (hne : p ≠ p₂) :
    insert_star_counts db [mkStarNode id c₁] p = db ++ [⟨id, c₁, p⟩] ∧
    insert_star_counts (db ++ [⟨id, c₁, p⟩]) [mkStarNode id c₂] p =
      db ++ [⟨id, c₁, p⟩] ∧
    starRowCount (db ++ [⟨id, c₁, p⟩]) id p = 1 ∧
    insert_star_counts (db ++ [⟨id, c₁, p⟩]) [mkStarNode id c₂] p₂ =
      db ++ [⟨id, c₁, p⟩] ++ [⟨id, c₂, p₂⟩] ∧
    starRowCount (db ++ [⟨id, c₁, p⟩] ++ [⟨id, c₂, p₂⟩]) id p = 1 ∧
    starRowCount (db ++ [⟨id, c₁, p⟩] ++ [⟨id, c₂, p₂⟩]) id p₂ = 1 := by
  have hkey : starKey id p ⟨id, c₁, p⟩ = true := by simp [starKey]
  have hkey₂ : starKey id p₂ ⟨id, c₂, p₂⟩ = true := by simp [starKey]
  have hk12 : starKey id p₂ ⟨id, c₁, p⟩ = false := by simp [starKey, hne]
  have hk21 : starKey id p ⟨id, c₂, p₂⟩ = false := by
    simp only [starKey, Bool.and_eq_false_iff, beq_eq_false_iff_ne, ne_eq]
    exact Or.inr fun h => hne h.symm
  have hfp : db.filter (starKey id p) = [] := by
    rw [List.filter_eq_nil_iff]
    intro a ha
    simpa using List.any_eq_false.mp hp a ha
  have hfp₂ : db.filter (starKey id p₂) = [] := by
    rw [List.filter_eq_nil_iff]
    intro a ha
    simpa using List.any_eq_false.mp hp₂ a ha
  refine ⟨?_, ?_, ?_, ?_, ?_, ?_⟩
  · show insertStarOne p db (mkStarNode id c₁) = _
    rw [insertStarOne, if_neg (by simp [mkStarNode, hp])]
    rfl
  · show insertStarOne p (db ++ [⟨id, c₁, p⟩]) (mkStarNode id c₂) = _
    rw [insertStarOne, if_pos (by simp [mkStarNode, List.any_append, hkey])]
  · simp [starRowCount, List.filter_append, hfp, List.filter_cons, hkey]
  · show insertStarOne p₂ (db ++ [⟨id, c₁, p⟩]) (mkStarNode id c₂) = _
    rw [insertStarOne, if_neg (by simp [mkStarNode, List.any_append, hp₂, hk12])]
    rfl
  · simp [starRowCount, List.filter_append, hfp, List.filter_cons, hkey, hk21]
  · simp [starRowCount, List.filter_append, hfp₂, List.filter_cons, hkey₂, hk12]

/-- C4 witness: the dedup-and-append behaviour at a concrete empty table. -/
theorem star_observations_per_period_witness :
    insert_star_counts ([] : List StarRow) [mkStarNode 1 5] 0 = [⟨1, 5, 0⟩] ∧
    insert_star_counts [⟨1, 5, 0⟩] [mkStarNode 1 9] 0 = [⟨1, 5, 0⟩] ∧
    starRowCount [⟨1, 5, 0⟩] 1 0 = 1 ∧
    insert_star_counts [⟨1, 5, 0⟩] [mkStarNode 1 9] 1 = [⟨1, 5, 0⟩, ⟨1, 9, 1⟩] ∧
    starRowCount [⟨1, 5, 0⟩, ⟨1, 9, 1⟩] 1 0 = 1 ∧
    starRowCount [⟨1, 5, 0⟩, ⟨1, 9, 1⟩] 1 1 = 1 := by
  have h := star_observations_per_period [] 1 5 9 0 1 (by decide) (by decide) (by decide)
  simpa using h

/-! ## Claim C6 -/

theorem runBatch_all_or_nothing {α β : Type} (f : α → β → α) (a : α) (l : List β)
    (failAt : Option Nat) :
    runBatch f a l failAt = some (l.foldl f a) ∨ runBatch f a l failAt = none := by
  induction l generalizing a failAt with
  | nil => exact Or.inl rfl
  | cons r rs ih =>
    match failAt with
    | some 0 => exact Or.inr rfl
    | some (k + 1) => exact ih (f a r) (some k)
    | none => exact ih (f a r) none

/-- C6: each persistence call is atomic per batch.  A call to
`upsert_repositories` (resp. `insert_star_counts`), whatever statement fails,
either returns successfully with the whole batch applied or raises with the
committed state exactly as before the call — a partially applied batch is
impossible. -/
theorem persistence_atomic_per_batch (db : RepoTable) (sdb : List StarRow)
    (repos : List RepoNode) (now p : Nat) (f₁ f₂ : Option Nat) :
    (upsert_repositories_call db repos now f₁ = (upsert_repositories db repos now, true) ∨
      upsert_repositories_call db repos now f₁ = (db, false)) ∧
    (insert_star_counts_call sdb repos p f₂ = (insert_star_counts sdb repos p, true) ∨
      insert_star_counts_call sdb repos p f₂ = (sdb, false)) := by
  constructor
  · rcases runBatch_all_or_nothing (upsertOne now) db repos f₁ with h | h <;>
      · rw [upsert_repositories_call, h]
        first
        | exact Or.inl rfl
        | exact Or.inr rfl
  · rcases runBatch_all_or_nothing (insertStarOne p) sdb repos f₂ with h | h <;>
      · rw [insert_star_counts_call, h]
        first
        | exact Or.inl rfl
        | exact Or.inr rfl

/-! ## Claims C2 and C9: the Fetcher's retry classification -/

/-- One-step unfolding of the attempt loop when the request returns an HTTP
response (the branch structure of `_execute_query`, source order). -/
theorem execAttempts_resp (outcomes : Nat → ReqOutcome) (fuel attempt : Nat)
    (now : Int) (status remaining : Nat) (reset : Int) (he : Bool)
    (pl : GraphQLResponse)
    (hout : outcomes attempt = .resp status remaining reset he pl) :
    execAttempts outcomes (fuel + 1) attempt now =
      if status = 200 then
        if he then
          if attempt < maxRetries - 1 then
            execAttempts outcomes fuel (attempt + 1) (now + backoff attempt)
          else (.error .graphqlErrors, now)
        else (.ok pl, now)
      else if status = 403 ∨ remaining = 0 then
        execAttempts outcomes fuel (attempt + 1) (now + rateWait reset now)
      else if status = 401 then (.error .auth, now)
      else if 400 ≤ status then
        if attempt < maxRetries - 1 then
          execAttempts outcomes fuel (attempt + 1) (now + backoff attempt)
        else (.error .requestError, now)
      else execAttempts outcomes fuel (attempt + 1) now := by
  conv_lhs => rw [execAttempts]
  rw [hout]

/-- A response body with no `data` key, for concrete retry-loop runs. -/
def respNone : GraphQLResponse := ⟨none⟩

/-- Every attempt gets HTTP 403 with plenty of remaining quota and
`X-RateLimit-Reset = 0`. -/
def rateLimitedStream : Nat → ReqOutcome := fun _ => .resp 403 100 0 false respNone

/-- C2 counterexample: rate-limit waits DO consume retry-attempt slots.  With
every attempt rate-limited (HTTP 403), the loop performs exactly `max_retries`
waits of 60 s each (`max(0 - now + 10, 60)`) and then raises
`Max retries exceeded` at t = 180 — the retry budget is exhausted by
rate-limit waits alone, refuting that such waits are unbounded in count. -/
theorem rate_limit_exhausts_retry_budget :
    execute_query rateLimitedStream 0 = (.error .maxRetriesExceeded, 180) := by
  rfl

/-- C2 amended: on a rate-limited response (HTTP 403, or any non-200 status
whose `X-RateLimit-Remaining` header parses to 0) the Fetcher sleeps
`max(resetAt − now + 10, 60)` — so its next attempt occurs no earlier than
`resetAt + 10` and no earlier than `now + 60` — but the retry consumes one of
the `max_retries = 3` attempt slots (the recursion continues with `fuel`, not
`fuel + 1`). -/
theorem rate_limit_wait_bounds (outcomes : Nat → ReqOutcome) (fuel attempt : Nat)
    (now : Int) (status remaining : Nat) (reset : Int) (he : Bool)
    (pl : GraphQLResponse)
    (hout : outcomes attempt = .resp status remaining reset he pl)
    (h200 : status ≠ 200) (hrl : status = 403 ∨ remaining = 0) :
    execAttempts outcomes (fuel + 1) attempt now =
      execAttempts outcomes fuel (attempt + 1) (now + rateWait reset now) ∧
    reset + 10 ≤ now + rateWait reset now ∧
    now + 60 ≤ now + rateWait reset now := by
  refine ⟨?_, ?_, ?_⟩
  · rw [execAttempts_resp outcomes fuel attempt now status remaining reset he pl hout]
    rw [if_neg h200, if_pos hrl]
  · have h := le_max_left (reset - now + 10) 60
    rw [rateWait]
    omega
  · have h := le_max_right (reset - now + 10) 60
    rw [rateWait]
    omega

/-- C2 witness: the amended theorem at the concrete 403 stream. -/
theorem rate_limit_wait_bounds_witness :
    execAttempts rateLimitedStream 3 0 0 =
      execAttempts rateLimitedStream 2 1 (0 + rateWait 0 0) ∧
    (0 : Int) + 10 ≤ 0 + rateWait 0 0 ∧
    (0 : Int) + 60 ≤ 0 + rateWait 0 0 :=
  rate_limit_wait_bounds rateLimitedStream 2 0 0 403 100 0 false respNone rfl
    (by decide) (Or.inl rfl)

/-- Every attempt gets HTTP 401 whose `X-RateLimit-Remaining` header is absent,
so the parsed value defaults to 0. -/
def authZeroRemainingStream : Nat → ReqOutcome := fun _ => .resp 401 0 0 false respNone

/-- C9 counterexample: a 401 response is NOT always failed immediately.  The
`status == 403 or remaining == 0` branch is checked before the 401 branch, so a
401 response accompanied by `remaining = 0` telemetry is treated as rate-limit
exhaustion: it is retried (with waits) until the budget runs out, ending in
`Max retries exceeded` rather than an authentication error. -/
theorem auth_with_zero_remaining_retried :
    execute_query authZeroRemainingStream 0 = (.error .maxRetriesExceeded, 180) ∧
    (execute_query authZeroRemainingStream 0).1 ≠ .error .auth := by
  refine ⟨rfl, ?_⟩
  intro h
  rw [show (execute_query authZeroRemainingStream 0).1 =
      (.error .maxRetriesExceeded : Except QueryError GraphQLResponse) from rfl] at h
  cases h

/-- C9 amended: a 401 response makes `_execute_query` raise the authentication
error immediately on the first attempt, with no retry — provided its rate-limit
telemetry does not classify it as rate-limited (remaining ≠ 0; 401 ≠ 403). -/
theorem auth_fails_immediately (outcomes : Nat → ReqOutcome) (now : Int)
    (remaining : Nat) (reset : Int) (he : Bool) (pl : GraphQLResponse)
    (hout : outcomes 0 = .resp 401 remaining reset he pl)
    (hrem : remaining ≠ 0) :
    execute_query outcomes now = (.error .auth, now) := by
  have hrl : ¬((401 : Nat) = 403 ∨ remaining = 0) := by
    rintro (h | h)
    · exact absurd h (by decide)
    · exact hrem h
  show execAttempts outcomes (2 + 1) 0 now = _
  rw [execAttempts_resp outcomes 2 0 now 401 remaining reset he pl hout]
  rw [if_neg (by decide : ¬((401 : Nat) = 200)), if_neg hrl, if_pos rfl]

/-- C9 witness: a 401 with nonzero remaining quota fails with the auth error
on the spot. -/
theorem auth_fails_immediately_witness :
    execute_query (fun _ => .resp 401 7 50 false respNone) 5 = (.error .auth, 5) :=
  auth_fails_immediately (fun _ => .resp 401 7 50 false respNone) 5 7 50 false
    respNone rfl (by decide)

/-! ## Orchestrator lemmas -/

/-- Exhaustive case analysis of one loop iteration: either the carried state is
exactly `s` (interrupt, fetch error, empty/missing page, empty filtered batch,
failed upsert), or only the upsert committed (failed star insert), or both
persistence calls committed and the counter advanced — with the cursor then
assigned exactly when `hasNextPage` is true. -/
theorem crawlStep_cases (now : Nat) (s : CrawlState) (ev : IterEvent) :
    (crawlStep now s ev).state = s ∨
    (∃ sd, ev = .fetched ⟨some sd⟩ false true ∧
      crawlStep now s ev = .continueRun (stepUpsert now s sd)) ∨
    (∃ sd, ev = .fetched ⟨some sd⟩ false false ∧ sd.nodes ≠ [] ∧
      filterValid sd.nodes ≠ [] ∧
      ((sd.pageInfo.hasNextPage = true ∧
        crawlStep now s ev =
          .continueRun { stepBoth now s sd with cursor := sd.pageInfo.endCursor }) ∨
       (sd.pageInfo.hasNextPage = false ∧
        crawlStep now s ev = .stop (stepBoth now s sd) .exhausted))) := by
  rcases ev with _ | e | ⟨⟨_ | sd⟩, uf, sf⟩
  · exact Or.inl rfl
  · exact Or.inl rfl
  · exact Or.inl rfl
  · by_cases hn : sd.nodes.isEmpty
    · left
      simp only [crawlStep]
      rw [if_pos hn]
      rfl
    · by_cases hf : (filterValid sd.nodes).isEmpty
      · left
        simp only [crawlStep]
        rw [if_neg hn, if_pos hf]
        rfl
      · have hn2 : sd.nodes ≠ [] := by
          intro hnil
          exact hn (by rw [hnil]; rfl)
        have hf2 : filterValid sd.nodes ≠ [] := by
          intro hnil
          exact hf (by rw [hnil]; rfl)
        cases uf
        · cases sf
          · right; right
            refine ⟨sd, rfl, hn2, hf2, ?_⟩
            by_cases hp : sd.pageInfo.hasNextPage
            · left
              refine ⟨hp, ?_⟩
              simp only [crawlStep]
              rw [if_neg hn, if_neg hf, if_pos hp]
              rfl
            · right
              refine ⟨(Bool.not_eq_true _).mp hp, ?_⟩
              simp only [crawlStep]
              rw [if_neg hn, if_neg hf, if_neg hp]
              rfl
          · right; left
            refine ⟨sd, rfl, ?_⟩
            simp only [crawlStep]
            rw [if_neg hn, if_neg hf]
            rfl
        · left
          simp only [crawlStep]
          rw [if_neg hn, if_neg hf]
          rfl

theorem crawlStep_total_le (now : Nat) (s : CrawlState) (ev : IterEvent) :
    s.totalRepos ≤ (crawlStep now s ev).state.totalRepos := by
  rcases crawlStep_cases now s ev with h | ⟨sd, _, h⟩ | ⟨sd, _, _, _, ⟨_, h⟩ | ⟨_, h⟩⟩
  · rw [h]
  · rw [h]
    exact Nat.le.refl
  · rw [h]
    exact Nat.le_add_right _ _
  · rw [h]
    exact Nat.le_add_right _ _

theorem crawlLoop_total_le (events : Nat → IterEvent) (times : Nat → Nat) (target : Nat) :
    ∀ fuel i s, s.totalRepos ≤ (crawlLoop events times target fuel i s).1.totalRepos := by
  intro fuel
  induction fuel with
  | zero => intro i s; exact Nat.le.refl
  | succ n ih =>
    intro i s
    by_cases h : s.totalRepos < target
    · show s.totalRepos ≤ (if s.totalRepos < target then
          match crawlStep (times i) s (events i) with
          | .continueRun s₂ => crawlLoop events times target n (i + 1) s₂
          | .stop s₂ k => (s₂, termOutcome k)
        else (s, .completed)).1.totalRepos
      rw [if_pos h]
      cases hstep : crawlStep (times i) s (events i) with
      | continueRun s₂ =>
        have h1 := crawlStep_total_le (times i) s (events i)
        rw [hstep] at h1
        exact le_trans h1 (ih (i + 1) s₂)
      | stop s₂ k =>
        have h1 := crawlStep_total_le (times i) s (events i)
        rw [hstep] at h1
        exact h1
    · show s.totalRepos ≤ (if s.totalRepos < target then
          match crawlStep (times i) s (events i) with
          | .continueRun s₂ => crawlLoop events times target n (i + 1) s₂
          | .stop s₂ k => (s₂, termOutcome k)
        else (s, .completed)).1.totalRepos
      rw [if_neg h]

theorem crawlLoop_stall (events : Nat → IterEvent) (times : Nat → Nat) (target : Nat)
    (s : CrawlState) (hlt : s.totalRepos < target)
    (hstep : ∀ j, crawlStep (times j) s (events j) = .continueRun s) :
    ∀ fuel i, crawlLoop events times target fuel i s = (s, .fuelOut) := by
  intro fuel
  induction fuel with
  | zero => intro i; rfl
  | succ n ih =>
    intro i
    show (if s.totalRepos < target then
        match crawlStep (times i) s (events i) with
        | .continueRun s₂ => crawlLoop events times target n (i + 1) s₂
        | .stop s₂ k => (s₂, termOutcome k)
      else (s, .completed)) = (s, .fuelOut)
    rw [if_pos hlt, hstep i]
    exact ih (i + 1)

/-! ## Claim C1 -/

/-- C1 amended: only explicit external cancellation (`KeyboardInterrupt`) exits
the crawl loop immediately; every exception raised by a fetch — the
authentication error included, since `_execute_query` raises it as a plain
`Exception` and `main` catches `Exception` — is logged and leaves the loop
running with the state unchanged. -/
theorem only_cancellation_is_crawl_fatal (now : Nat) (s : CrawlState) :
    crawlStep now s .interrupt = .stop s .interrupted ∧
    ∀ e, crawlStep now s (.fetchErr e) = .continueRun s :=
  ⟨rfl, fun _ => rfl⟩

/-- Every attempt gets HTTP 401 with a nonzero remaining quota, so
`_execute_query` raises its authentication error at once. -/
def authStream : Nat → ReqOutcome := fun _ => .resp 401 1 0 false respNone

/-- The loop state at the start of `main`'s crawl
(`total_repos = 0`, `cursor = None`, empty tables). -/
def state0 : CrawlState := ⟨0, none, fun _ => none, []⟩

/-- C1 counterexample: an authentication error from the Fetcher does NOT abort
the crawl.  The fetch raises the auth error, `main`'s `except Exception`
handler catches it, and the iteration ends in `continue` — four straight
auth-failing iterations later the loop is still running (`fuelOut`), no
`Aborted`-style exit ever happens. -/
theorem auth_error_does_not_abort_crawl :
    execute_query authStream 0 = (.error .auth, 0) ∧
    crawlStep 0 state0 (fetchEvent (execute_query authStream 0).1 false false) =
      .continueRun state0 ∧
    crawlLoop (fun _ => fetchEvent (execute_query authStream 0).1 false false)
      (fun _ => 0) 100000 4 0 state0 = (state0, .fuelOut) :=
  ⟨rfl, rfl, rfl⟩

/-! ## Claim C5 -/

/-- Helper: a non-nil list has `isEmpty = false`. -/
theorem list_isEmpty_false {α : Type} (l : List α) (h : l ≠ []) : l.isEmpty = false := by
  cases l with
  | nil => exact absurd rfl h
  | cons a t => rfl

/-- C5: the cursor never advances before the page is fully persisted.  A fetch
error makes the loop continue with the whole state unchanged; a failed upsert
on a valid page makes it continue with the whole state unchanged; a failed star
insert makes it continue with cursor, counter and star table unchanged (only
the already-committed upsert batch survives); and whenever the carried cursor
differs from `s.cursor`, both persistence calls completed on the filtered batch
and the cursor equals that page's `endCursor`. -/
theorem cursor_advances_only_after_persist (now : Nat) (s : CrawlState)
    (ev : IterEvent) :
    (∀ e, ev = .fetchErr e → crawlStep now s ev = .continueRun s) ∧
    (∀ sd sf, ev = .fetched ⟨some sd⟩ true sf → sd.nodes ≠ [] →
      filterValid sd.nodes ≠ [] → crawlStep now s ev = .continueRun s) ∧
    (∀ sd, ev = .fetched ⟨some sd⟩ false true → sd.nodes ≠ [] →
      filterValid sd.nodes ≠ [] →
      crawlStep now s ev = .continueRun (stepUpsert now s sd) ∧
      (stepUpsert now s sd).cursor = s.cursor ∧
      (stepUpsert now s sd).totalRepos = s.totalRepos ∧
      (stepUpsert now s sd).starTable = s.starTable) ∧
    ((crawlStep now s ev).state.cursor ≠ s.cursor →
      ∃ sd, ev = .fetched ⟨some sd⟩ false false ∧
        (crawlStep now s ev).state.repoTable =
          upsert_repositories s.repoTable (filterValid sd.nodes) now ∧
        (crawlStep now s ev).state.starTable =
          insert_star_counts s.starTable (filterValid sd.nodes) now ∧
        (crawlStep now s ev).state.cursor = sd.pageInfo.endCursor) := by
  refine ⟨?_, ?_, ?_, ?_⟩
  · intro e h
    subst h
    rfl
  · intro sd sf h hn2 hf2
    subst h
    have hn : ¬sd.nodes.isEmpty = true := by
      rw [list_isEmpty_false _ hn2]
      exact Bool.false_ne_true
    have hf : ¬(filterValid sd.nodes).isEmpty = true := by
      rw [list_isEmpty_false _ hf2]
      exact Bool.false_ne_true
    simp only [crawlStep]
    rw [if_neg hn, if_neg hf]
    rfl
  · intro sd h hn2 hf2
    subst h
    have hn : ¬sd.nodes.isEmpty = true := by
      rw [list_isEmpty_false _ hn2]
      exact Bool.false_ne_true
    have hf : ¬(filterValid sd.nodes).isEmpty = true := by
      rw [list_isEmpty_false _ hf2]
      exact Bool.false_ne_true
    refine ⟨?_, rfl, rfl, rfl⟩
    simp only [crawlStep]
    rw [if_neg hn, if_neg hf]
    rfl
  · intro hc
    rcases crawlStep_cases now s ev with h1 | ⟨sd, heq, h2⟩ |
      ⟨sd, heq, _, _, ⟨hp, h2⟩ | ⟨hp, h2⟩⟩
    · rw [h1] at hc
      exact absurd rfl hc
    · rw [h2] at hc
      exact absurd rfl hc
    · refine ⟨sd, heq, ?_, ?_, ?_⟩ <;> rw [h2] <;> rfl
    · rw [h2] at hc
      exact absurd rfl hc

/-- C5 witness: a concrete fetch error leaves the loop running at the same
cursor and state. -/
theorem cursor_advances_only_after_persist_witness :
    crawlStep 0 state0 (.fetchErr .timeout) = .continueRun state0 :=
  (cursor_advances_only_after_persist 0 state0 (.fetchErr .timeout)).1 .timeout rfl

/-! ## Claim C7 -/

/-- C7: `total_repos` is non-decreasing — per iteration and across the whole
loop — and whenever it changes it grows by exactly the length of the filtered
batch that was persisted in that iteration (both persistence calls committed on
that same filtered batch), never by the raw page size. -/
theorem totalFetched_monotone (now : Nat) (s : CrawlState) (ev : IterEvent) :
    s.totalRepos ≤ (crawlStep now s ev).state.totalRepos ∧
    ((crawlStep now s ev).state.totalRepos = s.totalRepos ∨
      ∃ sd, ev = .fetched ⟨some sd⟩ false false ∧ filterValid sd.nodes ≠ [] ∧
        (crawlStep now s ev).state.totalRepos =
          s.totalRepos + (filterValid sd.nodes).length ∧
        (crawlStep now s ev).state.repoTable =
          upsert_repositories s.repoTable (filterValid sd.nodes) now ∧
        (crawlStep now s ev).state.starTable =
          insert_star_counts s.starTable (filterValid sd.nodes) now) ∧
    ∀ events times target fuel i,
      s.totalRepos ≤ (crawlLoop events times target fuel i s).1.totalRepos := by
  refine ⟨crawlStep_total_le now s ev, ?_, fun events times target fuel i =>
    crawlLoop_total_le events times target fuel i s⟩
  rcases crawlStep_cases now s ev with h | ⟨sd, heq, h⟩ |
    ⟨sd, heq, hn, hf, ⟨hp, h⟩ | ⟨hp, h⟩⟩
  · left
    rw [h]
  · left
    rw [h]
    rfl
  · right
    refine ⟨sd, heq, hf, ?_, ?_, ?_⟩ <;> rw [h] <;> rfl
  · right
    refine ⟨sd, heq, hf, ?_, ?_, ?_⟩ <;> rw [h] <;> rfl

/-! ## Claim C10 -/

/-- C10: the loop distinguishes the two kinds of empty page.  A response
lacking the `data` key, or whose raw node list is empty, makes the loop `break`
(`No more repositories found`) even when `hasNextPage` is true; a response
whose nodes are non-empty but all filtered out as invalid makes the loop
`continue` (`Empty batch, continuing...`) with the state — cursor included —
unchanged; and an unbroken run of such continue-iterations repeats without
bound (any amount of fuel is consumed with no state change). -/
theorem empty_vs_filtered_page (now : Nat) (s : CrawlState) (resp : GraphQLResponse)
    (uf sf : Bool) :
    (resp.data? = none → crawlStep now s (.fetched resp uf sf) = .stop s .noData) ∧
    (∀ sd, resp.data? = some sd → sd.nodes = [] →
      crawlStep now s (.fetched resp uf sf) = .stop s .noData) ∧
    (∀ sd, resp.data? = some sd → sd.nodes ≠ [] → filterValid sd.nodes = [] →
      crawlStep now s (.fetched resp uf sf) = .continueRun s) ∧
    (∀ events times target fuel i,
      s.totalRepos < target →
      (∀ j, crawlStep (times j) s (events j) = .continueRun s) →
      crawlLoop events times target fuel i s = (s, .fuelOut)) := by
  refine ⟨?_, ?_, ?_, fun events times target fuel i hlt hstep =>
    crawlLoop_stall events times target s hlt hstep fuel i⟩
  · intro h
    simp only [crawlStep, h]
  · intro sd h hnil
    have hemp : sd.nodes.isEmpty = true := by
      rw [hnil]
      rfl
    simp only [crawlStep, h]
    rw [if_pos hemp]
  · intro sd h hne hfe
    have hemp : sd.nodes.isEmpty = false := by
      cases hl : sd.nodes with
      | nil => exact absurd hl hne
      | cons a l => rfl
    have hfemp : (filterValid sd.nodes).isEmpty = true := by
      rw [hfe]
      rfl
    simp only [crawlStep, h]
    rw [if_neg (by rw [hemp]; exact Bool.false_ne_true), if_pos hfemp]

/-- A page whose raw nodes are all invalid: a `null` entry and a node whose
`databaseId` is falsy. -/
def invalidPage : GraphQLResponse :=
  ⟨some ⟨[none, some ⟨0, "x", "y", "xy", 3, "c", "u"⟩], ⟨true, some "cur"⟩⟩⟩

/-- C10 witness: the all-invalid page makes the concrete initial state
continue unchanged. -/
theorem empty_vs_filtered_page_witness :
    crawlStep 0 state0 (.fetched invalidPage false false) = .continueRun state0 :=
  (empty_vs_filtered_page 0 state0 invalidPage false false).2.2.1
    ⟨[none, some ⟨0, "x", "y", "xy", 3, "c", "u"⟩], ⟨true, some "cur"⟩⟩ rfl
    (by simp) rfl

/-! ## Claim C8 -/

/-- A valid repository node with the (nonzero) id `i + 1`. -/
def sampleNode (i : Nat) : RepoNode := ⟨i + 1, "n", "o", "on", 5, "c", "u"⟩

/-- A full page of 100 valid nodes, as GitHub's maximum batch size returns. -/
def fullPage (hasNext : Bool) : GraphQLResponse :=
  ⟨some ⟨(List.range 100).map (fun i => some (sampleNode i)), ⟨hasNext, some "cur"⟩⟩⟩

/-- A source with unboundedly many full pages. -/
def eventsAlwaysMore : Nat → IterEvent := fun _ => .fetched (fullPage true) false false

/-- A source reporting `hasNextPage = false` on its third page. -/
def eventsThreePages : Nat → IterEvent :=
  fun j => .fetched (fullPage (decide (j < 2))) false false

/-- C8: with `target = 250` and full pages of 100 the loop runs exactly three
pages and stops with `totalRepos = 300` in the Completed state (overshoot, no
mid-batch split); with a higher target and a source that ends after three pages
of 100 it stops Exhausted with `totalRepos = 300`; and in general the loop
exits as Completed at the first iteration boundary where the counter has
reached the target. -/
theorem crawl_termination_completed_exhausted :
    (crawlLoop eventsAlwaysMore (fun _ => 0) 250 5 0 state0).1.totalRepos = 300 ∧
    (crawlLoop eventsAlwaysMore (fun _ => 0) 250 5 0 state0).2 = .completed ∧
    (crawlLoop eventsThreePages (fun _ => 0) 100000 5 0 state0).1.totalRepos = 300 ∧
    (crawlLoop eventsThreePages (fun _ => 0) 100000 5 0 state0).2 = .exhausted ∧
    ∀ events times target fuel i s₃, target ≤ CrawlState.totalRepos s₃ →
      crawlLoop events times target (fuel + 1) i s₃ = (s₃, .completed) := by
  refine ⟨rfl, rfl, rfl, rfl, ?_⟩
  intro events times target fuel i s₃ h
  show (if s₃.totalRepos < target then
      match crawlStep (times i) s₃ (events i) with
      | .continueRun s₂ => crawlLoop events times target fuel (i + 1) s₂
      | .stop s₂ k => (s₂, termOutcome k)
    else (s₃, .completed)) = (s₃, .completed)
  rw [if_neg (Nat.not_lt.mpr h)]

/-- A state whose counter already passed the 250 target. -/
def state300 : CrawlState := ⟨300, none, fun _ => none, []⟩

/-- C8 witness: the general completion clause applied at a concrete state with
`totalRepos = 300` and `target = 250`. -/
theorem crawl_termination_witness :
    crawlLoop eventsAlwaysMore (fun _ => 0) 250 1 0 state300 = (state300, .completed) :=
  crawl_termination_completed_exhausted.2.2.2.2 eventsAlwaysMore (fun _ => 0) 250 0 0
    state300 (by decide)
